import Mathlib

/-!
Verification of the SmartREST codec and operation dispatch/lifecycle engine of
the c8y-device-client-mqtt repository (src/main.go), against its specification.

The embedding models:
* the outbound publish path (publishMqttMessage / publishSmartRestMessage /
  publishJsonViaMqttMessage) as pure constructors of publish actions;
* the inbound decode path (csv.NewReader(...).ReadAll() with the error
  discarded, as in handleReceivedMessage) as an executable scanner with the
  semantics of Go encoding/csv under its default configuration;
* the operation switch of handleReceivedMessage as a function from the decoded
  record to the list of publish actions it performs, with Go panics from
  out-of-range record indexing surfaced as an explicit fault value (every
  record access in the source happens before the first publish of its case, so
  a fault implies that nothing was published).

The source never exercises a handler failure (each action is a simulated sleep
that succeeds); where a claim speaks about failure outcomes, the failure branch
is modelled from the spec and marked as such in its doc comment.
-/

namespace C8y

/-- One MQTT publish call as performed by publishMqttMessage: topic, quality of
service, retained flag and payload. -/
structure PublishAction where
  topic : String
  qos : Nat
  retained : Bool
  payload : String
deriving DecidableEq

/-- Embeds publishMqttMessage (src/main.go lines 143-150): qos is hardcoded to
byte(1) and retained to false; the function publishes and returns nothing. The
result records the publish call made. -/
def publishMqttMessage (topic message : String) : PublishAction :=
  { topic := topic, qos := 1, retained := false, payload := message }

/-- Embeds publishSmartRestMessage (line 135-137): every SmartREST row goes to
the fixed upstream topic s/us through publishMqttMessage. -/
def publishSmartRestMessage (message : String) : PublishAction :=
  publishMqttMessage "s/us" message

/-- Embeds publishJsonViaMqttMessage (line 139-141): JSON documents go to a
caller-chosen topic through publishMqttMessage. -/
def publishJsonViaMqttMessage (topic jsonMessage : String) : PublishAction :=
  publishMqttMessage topic jsonMessage

/-- Token returned by the MQTT client's Publish call; err mirrors token.Error(). -/
structure MqttToken where
  err : Option String

/-- The transport collaborator: Publish takes (topic, qos, retained, payload)
and returns a token. -/
structure MqttClient where
  publish : String → Nat → Bool → String → MqttToken

/-- Embeds publishMqttMessage together with its interaction with the MQTT
token (lines 143-150): it builds qos=1 and retained=false, calls
client.Publish, waits on the token, logs, and returns to its caller with no
value. token.Error() is never consulted, so the second component - the error
surfaced to the caller - is none, unconditionally. -/
def publishMqttMessageWithToken (client : MqttClient) (topic message : String) :
    PublishAction × Option String :=
  let qos := 1
  let retained := false
  let _token := client.publish topic qos retained message
  (⟨topic, qos, retained, message⟩, none)

/-- A client whose transport reports the given error on every publish. -/
def failingClient (e : String) : MqttClient :=
  ⟨fun _ _ _ _ => ⟨some e⟩⟩

/-- deviceName constant from main (line 33). -/
def deviceName : String := "showcase-device-01"

/-- deviceSerial constant from main (line 34). -/
def deviceSerial : String := "kobu-sn-7123"

/-- The two SmartREST rows published by main at startup (lines 51 and 55):
device creation (template 100) and capability declaration (template 114). -/
def mainStartupActions : List PublishAction :=
  [publishSmartRestMessage ("100," ++ deviceName ++ ",yourDeviceType"),
   publishSmartRestMessage "114,c8y_Firmware,c8y_Restart,c8y_SoftwareList,c8y_SoftwareUpdate,c8y_LogfileRequest,c8y_RemoteAccessConnect,c8y_DeviceProfile"]

/-- The custom-fragment JSON document published by setDeviceProperties (line 99). -/
def customFragmentJson : String :=
  "\x7b\"yourCustomFragment\":\x7b\"a\":\"abc\", \"b\":123, \"c\":[1,2,3]\x7d\x7d"

/-- Embeds setDeviceProperties (lines 76-100): seven SmartREST property rows
followed by one JSON-via-MQTT publish of a custom fragment. -/
def setDevicePropertiesActions : List PublishAction :=
  [publishSmartRestMessage "115,firmwareName,firmwareVersion,firmwareUrl",
   publishSmartRestMessage "116,software1,1.0.1,url1,software2,1.0.2,url2,software3,1.0.3",
   publishSmartRestMessage ("110," ++ deviceName ++ ",myHardwareModel,1.2.3"),
   publishSmartRestMessage "112,50.323423,6.423423",
   publishSmartRestMessage "118,dpkg,container,logread",
   publishSmartRestMessage "122,your-device-agent,0.1,https://cumulocity.com,\"Korbinian Butz\"",
   publishSmartRestMessage "117,60",
   publishJsonViaMqttMessage ("inventory/managedObjects/update/" ++ deviceSerial) customFragmentJson]

/-- The six-line measurement/event/alarm batch published each telemetry
iteration (lines 110-117); the Go raw string literal starts and ends with a
newline. -/
def telemetryCsv : String :=
  "\n200,temperature,T,15\n200,pressure,p,15\n200,yourMeasurementCategory,yourMeasurementName,16\n201,yourMeaType,,c8y_SinglePhaseEnergyMeasurement,A1,1234,kWh,c8y_SinglePhaseEnergyMeasurement,A2,2345,kWh\n400,yourEventType,\"Your Event description\"\n301,yourAlarmType,\"here is your alarm text\"\n"

/-- The event JSON built via sjson.Set in the telemetry loop (lines 122-128);
sjson appends the keys in insertion order, and the time field comes from
time.Now, passed here as an argument since it is an external input. -/
def telemetryEventJson (now : String) : String :=
  "\x7b\"time\":\"" ++ now ++ "\",\"text\":\"Your new Event\",\"type\":\"myCustomEventType\",\"yourCustomFragment\":123\x7d"

/-- Embeds one iteration of generateMeasurementsEventsAlarms (lines 102-133):
one SmartREST batch row publish and one JSON-via-MQTT event publish. -/
def generateMeasurementsEventsAlarmsIteration (now : String) : List PublishAction :=
  [publishSmartRestMessage telemetryCsv,
   publishJsonViaMqttMessage "event/events/create" (telemetryEventJson now)]

/-!
## Inbound decode: Go encoding/csv semantics

handleReceivedMessage decodes the payload with
csv.NewReader(strings.NewReader(message)).ReadAll() and discards the error
(line 161-162). The scanner below implements the semantics of Go encoding/csv
under the default configuration (Comma rune comma, LazyQuotes false,
TrimLeadingSpace false, FieldsPerRecord 0): \r\n is normalized to \n, a
trailing \r before end of input is dropped, blank lines are skipped, a field
starting with a quote is quoted with doubled internal quotes, a quote inside an
unquoted field is ErrBareQuote, an improperly closed quote is ErrQuote, and
after the first record every record must have the same number of fields or the
read fails with ErrFieldCount. ReadAll returns nil together with the first
error, so the error-discarding call site sees an empty record list whenever any
row of the payload is malformed.
-/

/-- Errors of the Go csv reader relevant to this program. -/
inductive CsvErr where
  | bareQuote
  | quote
  | fieldCount
deriving DecidableEq

/-- State of the record scanner: at the start of a field, inside an unquoted
field, inside a quoted field, or just past the closing quote of a quoted
section. -/
inductive ScanState where
  | fieldStart
  | unquoted
  | quoted
  | closedQuote
deriving DecidableEq

/-- FieldsPerRecord check: the first record fixes the expected field count. -/
def checkCount (rec : List (List Char)) (expected : Option Nat) : Bool :=
  match expected with
  | none => true
  | some n => rec.length == n

/-- Mirrors the per-line normalization of Go csv readLine: every \r\n becomes \n. -/
def normalizeCRLF : List Char → List Char
  | [] => []
  | [c] => [c]
  | c :: c2 :: rest =>
    if c = '\r' ∧ c2 = '\n' then '\n' :: normalizeCRLF rest
    else c :: normalizeCRLF (c2 :: rest)

/-- Mirrors Go csv readLine dropping a trailing \r immediately before end of
input. -/
def dropFinalCR : List Char → List Char
  | [] => []
  | [c] => if c = '\r' then [] else [c]
  | c :: rest => c :: dropFinalCR rest

/-- The record scanner: one pass over the normalized input, accumulating the
current field and record; emits a record at each newline outside quotes and at
end of input, skipping blank lines, checking the field count, and failing with
the Go csv errors described above. -/
def scanRecords : List Char → ScanState → List Char → List (List Char) → Option Nat →
    Except CsvErr (List (List (List Char)))
  | [], st, field, record, expected =>
    match st with
    | .quoted => .error .quote
    | .fieldStart =>
      if record.isEmpty then .ok []
      else if checkCount (record ++ [field]) expected then .ok [record ++ [field]]
      else .error .fieldCount
    | _ =>
      if checkCount (record ++ [field]) expected then .ok [record ++ [field]]
      else .error .fieldCount
  | c :: rest, st, field, record, expected =>
    match st with
    | .fieldStart =>
      if c = '"' then scanRecords rest .quoted field record expected
      else if c = ',' then scanRecords rest .fieldStart [] (record ++ [field]) expected
      else if c = '\n' then
        if record.isEmpty then scanRecords rest .fieldStart [] [] expected
        else if checkCount (record ++ [field]) expected then
          (scanRecords rest .fieldStart [] [] (some (record ++ [field]).length)).map
            (fun recs => (record ++ [field]) :: recs)
        else .error .fieldCount
      else scanRecords rest .unquoted (field ++ [c]) record expected
    | .unquoted =>
      if c = '"' then .error .bareQuote
      else if c = ',' then scanRecords rest .fieldStart [] (record ++ [field]) expected
      else if c = '\n' then
        if checkCount (record ++ [field]) expected then
          (scanRecords rest .fieldStart [] [] (some (record ++ [field]).length)).map
            (fun recs => (record ++ [field]) :: recs)
        else .error .fieldCount
      else scanRecords rest .unquoted (field ++ [c]) record expected
    | .quoted =>
      if c = '"' then scanRecords rest .closedQuote field record expected
      else scanRecords rest .quoted (field ++ [c]) record expected
    | .closedQuote =>
      if c = '"' then scanRecords rest .quoted (field ++ ['"']) record expected
      else if c = ',' then scanRecords rest .fieldStart [] (record ++ [field]) expected
      else if c = '\n' then
        if checkCount (record ++ [field]) expected then
          (scanRecords rest .fieldStart [] [] (some (record ++ [field]).length)).map
            (fun recs => (record ++ [field]) :: recs)
        else .error .fieldCount
      else .error .quote

/-- Embeds line 161-162 of handleReceivedMessage: reader.ReadAll() with the
error discarded. On any csv error ReadAll returns a nil record slice, so the
caller sees an empty list. -/
def readAllRecords (raw : String) : List (List String) :=
  match scanRecords (dropFinalCR (normalizeCRLF raw.data)) .fieldStart [] [] none with
  | .ok recs => recs.map (fun r => r.map List.asString)
  | .error _ => []

/-!
## Row encoder

The source builds every outbound row by string concatenation and quotes by
hand; it has no encode function. The encoder below is therefore modelled from
the spec and used only for the round-trip claim about the Row Codec.
-/

/-- Modelled from the spec: standard CSV quoting doubles each quote character
inside a quoted field. The source has no encoder. -/
def escapeQuotes : List Char → List Char
  | [] => []
  | c :: rest => if c = '"' then '"' :: '"' :: escapeQuotes rest else c :: escapeQuotes rest

/-- Modelled from the spec: a field is emitted verbatim unless it contains the
comma delimiter or the quote character, in which case it is wrapped in quotes
with internal quotes doubled. The source has no encoder. -/
def encodeFieldL (f : List Char) : List Char :=
  if ',' ∈ f ∨ '"' ∈ f then '"' :: (escapeQuotes f ++ ['"']) else f

/-- Modelled from the spec: encode joins the encoded fields with the comma
delimiter into one row. The source has no encoder. -/
def encodeL : List (List Char) → List Char
  | [] => []
  | [f] => encodeFieldL f
  | f :: fs => encodeFieldL f ++ ',' :: encodeL fs

/-- Modelled from the spec: string-level entry point of the encoder. -/
def encode (fields : List String) : String :=
  (encodeL (fields.map String.data)).asString

/-!
## Operation dispatch and lifecycle (handleReceivedMessage, lines 155-243)
-/

/-- The operation kinds distinguished by the switch of handleReceivedMessage. -/
inductive OpKind where
  | restart
  | shell
  | firmwareUpdate
  | logfileRequest
  | softwareUpdate
  | remoteAccessConnect
  | unsupported
deriving DecidableEq

/-- Discrimination of the switch over templateId (line 165): the six recognized
template identifiers, everything else falling to the default case. -/
def kindOf (templateId : String) : OpKind :=
  if templateId = "510" then .restart
  else if templateId = "511" then .shell
  else if templateId = "515" then .firmwareUpdate
  else if templateId = "522" then .logfileRequest
  else if templateId = "528" then .softwareUpdate
  else if templateId = "530" then .remoteAccessConnect
  else .unsupported

/-- The capability name each recognized kind uses in its status rows. -/
def capabilityName : OpKind → String
  | .restart => "c8y_Restart"
  | .shell => "c8y_Command"
  | .firmwareUpdate => "c8y_Firmware"
  | .logfileRequest => "c8y_LogfileRequest"
  | .softwareUpdate => "c8y_SoftwareUpdate"
  | .remoteAccessConnect => "c8y_RemoteAccessConnect"
  | .unsupported => ""

/-- Outcome of the external action handler. The source always succeeds (every
action is a simulated sleep); the failure alternative exists to express the
spec's success/failure union and is exercised only by the spec-modelled failure
branch of processRecord. -/
inductive HandlerOutcome where
  | success
  | failure (reason : String)

/-- The terminal status row of one lifecycle: 503 with the capability name on
success, 502 with the capability name and the reason text on failure. -/
def terminalStatusRow (outcome : HandlerOutcome) (k : OpKind) : String :=
  match outcome with
  | .success => "503," ++ capabilityName k
  | .failure reason => ("502," ++ capabilityName k ++ ",") ++ reason

/-- A Go panic surfaced by the embedding: record[i] with i out of range. -/
inductive Fault where
  | indexOutOfRange
deriving DecidableEq

/-- One software package of a 528 row, as built in the loop at lines 214-222. -/
structure SoftwarePackage where
  name : String
  version : String
  url : String
  action : String
deriving DecidableEq

/-- Embeds the group extraction of case "528" (lines 212-222):
countSoftwarePackages is (len(record)-2)/4 with truncating division, and
package i takes the four fields starting at index 2+4*i. The division
guarantees every index below is in range, so the defaults of getD are never
reached. -/
def softwarePackages (record : List String) : List SoftwarePackage :=
  (List.range ((record.length - 2) / 4)).map fun i =>
    { name := record.getD (2 + i * 4) ""
      version := record.getD (2 + i * 4 + 1) ""
      url := record.getD (2 + i * 4 + 2) ""
      action := record.getD (2 + i * 4 + 3) "" }

/-- The least record length each recognized case can process without an
out-of-range panic, read off the record indices the source accesses before its
first publish (522 reads record[5]; 528 reads record[1] after the group loop). -/
def minFieldCount : OpKind → Nat
  | .restart => 2
  | .shell => 3
  | .firmwareUpdate => 5
  | .logfileRequest => 6
  | .softwareUpdate => 2
  | .remoteAccessConnect => 5
  | .unsupported => 1

/-- Embeds the switch of handleReceivedMessage (lines 164-242) on one decoded
record. Every record access of the source happens before the first publish of
its case, so the fault result carries no partial publish list. The success
branch publishes exactly what the source publishes, including the firmware
inventory row (line 196) and the hardcoded software list row (line 228); the
failure branch is modelled from the spec (section 4.4: on handler failure the
lifecycle emits FAILED with the reason text, as in the commented 502 example at
line 175), because the source's simulated handlers never fail. -/
def processRecord (outcome : HandlerOutcome) (record : List String) :
    Except Fault (List PublishAction) :=
  match record.get? 0 with
  | none => .error .indexOutOfRange
  | some templateId =>
    match kindOf templateId with
    | .restart =>
      match record.get? 1 with
      | none => .error .indexOutOfRange
      | some _ =>
        .ok ([publishSmartRestMessage "501,c8y_Restart"] ++
          match outcome with
          | .success => [publishSmartRestMessage "503,c8y_Restart"]
          | .failure reason => [publishSmartRestMessage ("502,c8y_Restart," ++ reason)])
    | .shell =>
      match record.get? 1, record.get? 2 with
      | some _, some _ =>
        .ok ([publishSmartRestMessage "501,c8y_Command"] ++
          match outcome with
          | .success => [publishSmartRestMessage "503,c8y_Command"]
          | .failure reason => [publishSmartRestMessage ("502,c8y_Command," ++ reason)])
      | _, _ => .error .indexOutOfRange
    | .firmwareUpdate =>
      match record.get? 2, record.get? 3, record.get? 4, record.get? 1 with
      | some fwName, some fwVersion, some fwUrl, some _ =>
        .ok ([publishSmartRestMessage "501,c8y_Firmware"] ++
          match outcome with
          | .success =>
            [publishSmartRestMessage ("115," ++ fwName ++ "," ++ fwVersion ++ "," ++ fwUrl),
             publishSmartRestMessage "503,c8y_Firmware"]
          | .failure reason => [publishSmartRestMessage ("502,c8y_Firmware," ++ reason)])
      | _, _, _, _ => .error .indexOutOfRange
    | .logfileRequest =>
      match record.get? 1, record.get? 2, record.get? 3, record.get? 4, record.get? 5 with
      | some _, some _, some _, some _, some _ =>
        .ok ([publishSmartRestMessage "501,c8y_LogfileRequest"] ++
          match outcome with
          | .success => [publishSmartRestMessage "503,c8y_LogfileRequest"]
          | .failure reason => [publishSmartRestMessage ("502,c8y_LogfileRequest," ++ reason)])
      | _, _, _, _, _ => .error .indexOutOfRange
    | .softwareUpdate =>
      match record.get? 1 with
      | none => .error .indexOutOfRange
      | some _ =>
        .ok ([publishSmartRestMessage "501,c8y_SoftwareUpdate"] ++
          match outcome with
          | .success =>
            [publishSmartRestMessage "116,software1,version1,url1,software2,,url2,software3,version3",
             publishSmartRestMessage "503,c8y_SoftwareUpdate"]
          | .failure reason => [publishSmartRestMessage ("502,c8y_SoftwareUpdate," ++ reason)])
    | .remoteAccessConnect =>
      match record.get? 1, record.get? 2, record.get? 3, record.get? 4 with
      | some _, some _, some _, some _ =>
        .ok ([publishSmartRestMessage "501,c8y_RemoteAccessConnect"] ++
          match outcome with
          | .success => [publishSmartRestMessage "503,c8y_RemoteAccessConnect"]
          | .failure reason => [publishSmartRestMessage ("502,c8y_RemoteAccessConnect," ++ reason)])
      | _, _, _, _ => .error .indexOutOfRange
    | .unsupported => .ok []

/-- Embeds handleReceivedMessage (lines 155-243): decode the payload with
ReadAll (error discarded), take records[0] - a panic when the record list is
empty - and run the switch on it. -/
def handleReceivedMessage (outcome : HandlerOutcome) (message : String) :
    Except Fault (List PublishAction) :=
  match readAllRecords message with
  | [] => .error .indexOutOfRange
  | record :: _ => processRecord outcome record

/-- Recognizer for operation status rows (templates 501, 502, 503): the payload
starts with one of the three status template identifiers and the delimiter. -/
def statusRowStart : List Char → Bool
  | c1 :: c2 :: c3 :: c4 :: _ =>
    c1 == '5' && c2 == '0' && (c3 == '1' || c3 == '2' || c3 == '3') && c4 == ','
  | _ => false

/-- A publish action is a status fact when its payload is a 501/502/503 row. -/
def isStatusFact (a : PublishAction) : Bool :=
  statusRowStart a.payload.data

/-!
## Supporting lemmas
-/

lemma kindOf_cases {s : String} {k : OpKind} (h : kindOf s = k) (hk : k ≠ .unsupported) :
    s = "510" ∧ k = .restart ∨ s = "511" ∧ k = .shell ∨ s = "515" ∧ k = .firmwareUpdate ∨
    s = "522" ∧ k = .logfileRequest ∨ s = "528" ∧ k = .softwareUpdate ∨
    s = "530" ∧ k = .remoteAccessConnect := by
  unfold kindOf at h
  split_ifs at h <;> simp_all

lemma c1_case_restart (outcome : HandlerOutcome) (rest : List String)
    (acts : List PublishAction) (h : processRecord outcome ("510" :: rest) = .ok acts) :
    acts.filter isStatusFact =
      [publishSmartRestMessage ("501," ++ capabilityName .restart),
       publishSmartRestMessage (terminalStatusRow outcome .restart)] := by
  cases rest with
  | nil => simp [processRecord, kindOf, List.get?] at h
  | cons a t =>
    cases outcome <;> (injection h with h2; subst h2; rfl)

lemma c1_case_shell (outcome : HandlerOutcome) (rest : List String)
    (acts : List PublishAction) (h : processRecord outcome ("511" :: rest) = .ok acts) :
    acts.filter isStatusFact =
      [publishSmartRestMessage ("501," ++ capabilityName .shell),
       publishSmartRestMessage (terminalStatusRow outcome .shell)] := by
  rcases rest with _ | ⟨a1, _ | ⟨a2, t⟩⟩
  · simp [processRecord, kindOf, List.get?] at h
  · simp [processRecord, kindOf, List.get?] at h
  · cases outcome <;> (injection h with h2; subst h2; rfl)

lemma c1_case_firmware (outcome : HandlerOutcome) (rest : List String)
    (acts : List PublishAction) (h : processRecord outcome ("515" :: rest) = .ok acts) :
    acts.filter isStatusFact =
      [publishSmartRestMessage ("501," ++ capabilityName .firmwareUpdate),
       publishSmartRestMessage (terminalStatusRow outcome .firmwareUpdate)] := by
  rcases rest with _ | ⟨a1, _ | ⟨a2, _ | ⟨a3, _ | ⟨a4, t⟩⟩⟩⟩
  · simp [processRecord, kindOf, List.get?] at h
  · simp [processRecord, kindOf, List.get?] at h
  · simp [processRecord, kindOf, List.get?] at h
  · simp [processRecord, kindOf, List.get?] at h
  · cases outcome <;> (injection h with h2; subst h2; rfl)

lemma c1_case_logfile (outcome : HandlerOutcome) (rest : List String)
    (acts : List PublishAction) (h : processRecord outcome ("522" :: rest) = .ok acts) :
    acts.filter isStatusFact =
      [publishSmartRestMessage ("501," ++ capabilityName .logfileRequest),
       publishSmartRestMessage (terminalStatusRow outcome .logfileRequest)] := by
  rcases rest with _ | ⟨a1, _ | ⟨a2, _ | ⟨a3, _ | ⟨a4, _ | ⟨a5, t⟩⟩⟩⟩⟩
  · simp [processRecord, kindOf, List.get?] at h
  · simp [processRecord, kindOf, List.get?] at h
  · simp [processRecord, kindOf, List.get?] at h
  · simp [processRecord, kindOf, List.get?] at h
  · simp [processRecord, kindOf, List.get?] at h
  · cases outcome <;> (injection h with h2; subst h2; rfl)

lemma c1_case_software (outcome : HandlerOutcome) (rest : List String)
    (acts : List PublishAction) (h : processRecord outcome ("528" :: rest) = .ok acts) :
    acts.filter isStatusFact =
      [publishSmartRestMessage ("501," ++ capabilityName .softwareUpdate),
       publishSmartRestMessage (terminalStatusRow outcome .softwareUpdate)] := by
  cases rest with
  | nil => simp [processRecord, kindOf, List.get?] at h
  | cons a t =>
    cases outcome <;> (injection h with h2; subst h2; rfl)

lemma c1_case_remote (outcome : HandlerOutcome) (rest : List String)
    (acts : List PublishAction) (h : processRecord outcome ("530" :: rest) = .ok acts) :
    acts.filter isStatusFact =
      [publishSmartRestMessage ("501," ++ capabilityName .remoteAccessConnect),
       publishSmartRestMessage (terminalStatusRow outcome .remoteAccessConnect)] := by
  rcases rest with _ | ⟨a1, _ | ⟨a2, _ | ⟨a3, _ | ⟨a4, t⟩⟩⟩⟩
  · simp [processRecord, kindOf, List.get?] at h
  · simp [processRecord, kindOf, List.get?] at h
  · simp [processRecord, kindOf, List.get?] at h
  · simp [processRecord, kindOf, List.get?] at h
  · cases outcome <;> (injection h with h2; subst h2; rfl)

/-!
## Claim theorems
-/

/-- C1: for every recognized operation kind (Restart, Shell, FirmwareUpdate,
LogfileRequest, SoftwareUpdate, RemoteAccessConnect), processing one inbound
operation row publishes exactly the status-fact sequence [EXECUTING, terminal]
in that order - a 501 row with the kind's capability name before the terminal
status row - for both success and failure handler outcomes. The failure
outcome exercises the spec-modelled failure branch of processRecord, since the
source's simulated handlers never fail. -/
theorem c1_status_fact_sequence (outcome : HandlerOutcome) (record : List String)
    (k : OpKind) (acts : List PublishAction)
    (h1 : kindOf (record.headD "") = k) (h2 : k ≠ .unsupported)
    (h : processRecord outcome record = .ok acts) :
    acts.filter isStatusFact =
      [publishSmartRestMessage ("501," ++ capabilityName k),
       publishSmartRestMessage (terminalStatusRow outcome k)] := by
  cases record with
  | nil => exact absurd (by rw [← h1]; decide) h2
  | cons tid rest =>
    have h1' : kindOf tid = k := h1
    rcases kindOf_cases h1' h2 with ⟨rfl, rfl⟩ | ⟨rfl, rfl⟩ | ⟨rfl, rfl⟩ |
      ⟨rfl, rfl⟩ | ⟨rfl, rfl⟩ | ⟨rfl, rfl⟩
    · exact c1_case_restart outcome rest acts h
    · exact c1_case_shell outcome rest acts h
    · exact c1_case_firmware outcome rest acts h
    · exact c1_case_logfile outcome rest acts h
    · exact c1_case_software outcome rest acts h
    · exact c1_case_remote outcome rest acts h

/-- Witness for C1 at the restart row 510,dev1 with a successful handler. -/
theorem c1_witness :
    List.filter isStatusFact
        [publishSmartRestMessage "501,c8y_Restart", publishSmartRestMessage "503,c8y_Restart"] =
      [publishSmartRestMessage ("501," ++ capabilityName .restart),
       publishSmartRestMessage (terminalStatusRow .success .restart)] :=
  c1_status_fact_sequence .success ["510", "dev1"] .restart _ (by decide) (by decide) rfl

/-- C2: the firmware-update input row 515,dev1,fwA,2.0,http://x publishes, in
this order, an EXECUTING status fact for c8y_Firmware, the inventory fact
115,fwA,2.0,http://x, then a SUCCESSFUL status fact for c8y_Firmware. -/
theorem c2_firmware_update_sequence :
    handleReceivedMessage .success "515,dev1,fwA,2.0,http://x" =
      .ok [publishSmartRestMessage "501,c8y_Firmware",
           publishSmartRestMessage "115,fwA,2.0,http://x",
           publishSmartRestMessage "503,c8y_Firmware"] := rfl

/-- C5: the input row 528,dev1,sw1,1.0,u1,install,sw2,2.0,u2,install decodes to
one record and its group extraction yields exactly two software packages with
the stated fields. -/
theorem c5_software_group_parsing :
    readAllRecords "528,dev1,sw1,1.0,u1,install,sw2,2.0,u2,install" =
      [["528", "dev1", "sw1", "1.0", "u1", "install", "sw2", "2.0", "u2", "install"]] ∧
    softwarePackages ["528", "dev1", "sw1", "1.0", "u1", "install", "sw2", "2.0", "u2", "install"] =
      [{ name := "sw1", version := "1.0", url := "u1", action := "install" },
       { name := "sw2", version := "2.0", url := "u2", action := "install" }] :=
  ⟨rfl, rfl⟩

/-- C7: for every inbound row whose template identifier is not one of the six
registered operation templates, the switch discriminates it as unsupported and
the handler performs zero publishes and raises no fault. -/
theorem c7_unknown_template (outcome : HandlerOutcome) (record : List String) (tid : String)
    (h1 : record.head? = some tid)
    (h2 : tid ∉ ["510", "511", "515", "522", "528", "530"]) :
    kindOf tid = .unsupported ∧ processRecord outcome record = .ok [] := by
  simp only [List.mem_cons, List.mem_singleton, not_or] at h2
  have hk : kindOf tid = .unsupported := by
    unfold kindOf
    split_ifs <;> simp_all
  have hg : record[0]? = some tid := by
    cases record <;> simp_all
  exact ⟨hk, by simp [processRecord, hg, hk]⟩

/-- Witness for C7 at template identifier 999. -/
theorem c7_witness :
    kindOf "999" = .unsupported ∧ processRecord .success ["999", "x"] = .ok [] :=
  c7_unknown_template .success ["999", "x"] "999" rfl (by decide)

/-- Counterexample for C3: the row 522,dev1, below the log-file template's
minimum field count, does not fail with MalformedRow - the engine has no such
error and no field-count validation - but with the out-of-range index fault the
claim says never occurs (record[5] at line 204 panics). -/
theorem c3_counterexample :
    handleReceivedMessage .success "522,dev1" = .error .indexOutOfRange := rfl

/-- C3 amended: for every recognized template identifier, a record with fewer
fields than the case accesses makes the switch fault with an out-of-range index
(a Go panic) before publishing anything; there is no MalformedRow error and no
partial result. -/
theorem c3_short_row_out_of_range (outcome : HandlerOutcome) (record : List String)
    (k : OpKind) (h1 : kindOf (record.headD "") = k) (h2 : k ≠ .unsupported)
    (h3 : record.length < minFieldCount k) :
    processRecord outcome record = .error .indexOutOfRange := by
  cases record with
  | nil => exact absurd (by rw [← h1]; decide) h2
  | cons tid rest =>
    have h1' : kindOf tid = k := h1
    rcases kindOf_cases h1' h2 with ⟨rfl, rfl⟩ | ⟨rfl, rfl⟩ | ⟨rfl, rfl⟩ |
      ⟨rfl, rfl⟩ | ⟨rfl, rfl⟩ | ⟨rfl, rfl⟩
    · cases rest with
      | nil => rfl
      | cons a t => simp [minFieldCount] at h3; omega
    · rcases rest with _ | ⟨a1, _ | ⟨a2, t⟩⟩
      · rfl
      · rfl
      · simp [minFieldCount] at h3; omega
    · rcases rest with _ | ⟨a1, _ | ⟨a2, _ | ⟨a3, _ | ⟨a4, t⟩⟩⟩⟩
      · rfl
      · rfl
      · rfl
      · rfl
      · simp [minFieldCount] at h3; omega
    · rcases rest with _ | ⟨a1, _ | ⟨a2, _ | ⟨a3, _ | ⟨a4, _ | ⟨a5, t⟩⟩⟩⟩⟩
      · rfl
      · rfl
      · rfl
      · rfl
      · rfl
      · simp [minFieldCount] at h3; omega
    · cases rest with
      | nil => rfl
      | cons a t => simp [minFieldCount] at h3; omega
    · rcases rest with _ | ⟨a1, _ | ⟨a2, _ | ⟨a3, _ | ⟨a4, t⟩⟩⟩⟩
      · rfl
      · rfl
      · rfl
      · rfl
      · simp [minFieldCount] at h3; omega

/-- Witness for C3 amended at the record 522,dev1. -/
theorem c3_witness :
    processRecord .success ["522", "dev1"] = .error .indexOutOfRange :=
  c3_short_row_out_of_range .success ["522", "dev1"] .logfileRequest (by decide)
    (by decide) (by decide)

/-- Counterexample for C4: the two-row batch 510,dev1 and 510,dev2 decodes to
two records, yet the handler publishes only the status sequence of the first
row - the second row of the batch is never processed, contrary to the claim
that remaining rows of the same batch are still processed. -/
theorem c4_counterexample :
    readAllRecords "510,dev1\n510,dev2" = [["510", "dev1"], ["510", "dev2"]] ∧
    handleReceivedMessage .success "510,dev1\n510,dev2" =
      .ok [publishSmartRestMessage "501,c8y_Restart",
           publishSmartRestMessage "503,c8y_Restart"] :=
  ⟨rfl, rfl⟩

/-- C4 amended: the handler decodes the whole payload via ReadAll but processes
only records[0]; every later row of the batch is ignored. A malformed row is
not dropped per line: any csv error makes ReadAll return nil (so the handler
faults on records[0]), and a structurally short first row faults with an
out-of-range index instead of a logged MalformedRow. -/
theorem c4_first_record_only (outcome : HandlerOutcome) (raw : String)
    (r : List String) (rest : List (List String))
    (h : readAllRecords raw = r :: rest) :
    handleReceivedMessage outcome raw = processRecord outcome r := by
  unfold handleReceivedMessage
  rw [h]

/-- Witness for C4 amended on the two-row batch. -/
theorem c4_witness :
    handleReceivedMessage .success "510,dev1\n510,dev2" =
      processRecord .success ["510", "dev1"] :=
  c4_first_record_only .success _ _ _ rfl

/-- Counterexample for C6: the 528 row with seven fields has a remainder of one
after the two-field prefix, which is not evenly divisible by the group width
four; decoding does not fail with MalformedRow - the dispatch succeeds, parses
one package with truncating division and silently ignores the trailing field. -/
theorem c6_counterexample :
    processRecord .success ["528", "dev1", "sw1", "1.0", "u1", "install", "extra"] =
      .ok [publishSmartRestMessage "501,c8y_SoftwareUpdate",
           publishSmartRestMessage "116,software1,version1,url1,software2,,url2,software3,version3",
           publishSmartRestMessage "503,c8y_SoftwareUpdate"] ∧
    softwarePackages ["528", "dev1", "sw1", "1.0", "u1", "install", "extra"] =
      [{ name := "sw1", version := "1.0", url := "u1", action := "install" }] :=
  ⟨rfl, rfl⟩

/-- C6 amended: for every 528 row the dispatcher computes
groupCount = (totalFields - prefixLength) / groupWidth with prefix length 2 and
group width 4 under truncating division, and whenever the record has at least
the two prefix fields the dispatch succeeds - an indivisible remainder is
silently ignored, never a MalformedRow failure. -/
theorem c6_group_count_truncates (outcome : HandlerOutcome) (record : List String)
    (h0 : record.head? = some "528") (h1 : 2 ≤ record.length) :
    (softwarePackages record).length = (record.length - 2) / 4 ∧
    ∃ acts, processRecord outcome record = .ok acts := by
  refine ⟨by simp [softwarePackages], ?_⟩
  cases record with
  | nil => simp at h0
  | cons a rest =>
    simp only [List.head?, Option.some.injEq] at h0
    subst h0
    cases rest with
    | nil => simp at h1
    | cons b t => exact ⟨_, rfl⟩

/-- Witness for C6 amended at the seven-field 528 row. -/
theorem c6_witness :
    (softwarePackages ["528", "dev1", "sw1", "1.0", "u1", "install", "extra"]).length =
      ((["528", "dev1", "sw1", "1.0", "u1", "install", "extra"] : List String).length - 2) / 4 ∧
    ∃ acts, processRecord .success ["528", "dev1", "sw1", "1.0", "u1", "install", "extra"] =
      .ok acts :=
  c6_group_count_truncates .success _ rfl (by decide)

/-- Counterexample for C9: with a transport whose publish reports an error, the
caller of publishMqttMessage receives no error at all - the reported transport
error is not propagated, contrary to the claim. -/
theorem c9_counterexample :
    (publishMqttMessageWithToken (failingClient "connection lost") "s/us" "501,c8y_Restart").2 =
      none ∧
    (publishMqttMessageWithToken (failingClient "connection lost") "s/us" "501,c8y_Restart").2 ≠
      some "connection lost" :=
  ⟨rfl, by simp [publishMqttMessageWithToken]⟩

/-- C9 amended: publishMqttMessage performs the publish call (qos 1, not
retained) and waits on the token, but never reads token.Error() and returns no
value: whatever the transport reports, the caller receives no error. -/
theorem c9_error_swallowed (client : MqttClient) (topic message : String) :
    (publishMqttMessageWithToken client topic message).1 = publishMqttMessage topic message ∧
    (publishMqttMessageWithToken client topic message).2 = none :=
  ⟨rfl, rfl⟩

lemma processRecord_publishes_smartrest (outcome : HandlerOutcome) (record : List String)
    (acts : List PublishAction) (h : processRecord outcome record = .ok acts) :
    ∀ a ∈ acts, a.topic = "s/us" ∧ a.qos = 1 ∧ a.retained = false := by
  unfold processRecord at h
  repeat' split at h
  all_goals first
    | exact Except.noConfusion h
    | (injection h with h2; subst h2; intro a ha; exact absurd ha (List.not_mem_nil a))
    | (injection h with h2; subst h2; intro a ha;
       simp only [List.cons_append, List.nil_append, List.mem_cons, List.not_mem_nil,
         or_false] at ha;
       rcases ha with rfl | rfl | rfl <;> exact ⟨rfl, rfl, rfl⟩)

/-- C10: every SmartREST row of every outbound path goes through the single
shared publish function to the one upstream topic s/us with qos 1 and
retained=false: publishSmartRestMessage always produces exactly that call; all
publishes of the operation handler are such calls; and across the startup,
device-properties and telemetry paths every publish has qos 1 and retained
false, with only the two JSON-via-MQTT documents (which are not SmartREST
rows) going to their own topics. -/
theorem c10_single_publish_path :
    (∀ m, publishSmartRestMessage m =
        { topic := "s/us", qos := 1, retained := false, payload := m }) ∧
    (∀ outcome message acts, handleReceivedMessage outcome message = .ok acts →
        ∀ a ∈ acts, a.topic = "s/us" ∧ a.qos = 1 ∧ a.retained = false) ∧
    (∀ now a, a ∈ mainStartupActions ++ setDevicePropertiesActions ++
        generateMeasurementsEventsAlarmsIteration now →
        a.qos = 1 ∧ a.retained = false ∧
        (a.topic = "s/us" ∨ a.topic = "inventory/managedObjects/update/" ++ deviceSerial ∨
         a.topic = "event/events/create")) := by
  refine ⟨fun m => rfl, ?_, ?_⟩
  · intro outcome message acts h a ha
    unfold handleReceivedMessage at h
    split at h
    · exact absurd h (by simp)
    · exact processRecord_publishes_smartrest _ _ _ h a ha
  · intro now a ha
    simp only [mainStartupActions, setDevicePropertiesActions,
      generateMeasurementsEventsAlarmsIteration, List.append_assoc, List.cons_append,
      List.nil_append, List.mem_cons, List.not_mem_nil, or_false] at ha
    rcases ha with rfl | rfl | rfl | rfl | rfl | rfl | rfl | rfl | rfl | rfl | rfl | rfl <;>
      simp [publishSmartRestMessage, publishMqttMessage, publishJsonViaMqttMessage]

/-- Witness for C10 on the EXECUTING publish of a restart operation. -/
theorem c10_witness :
    (publishSmartRestMessage "501,c8y_Restart").topic = "s/us" ∧
    (publishSmartRestMessage "501,c8y_Restart").qos = 1 ∧
    (publishSmartRestMessage "501,c8y_Restart").retained = false :=
  c10_single_publish_path.2.1 .success "510,dev1"
    [publishSmartRestMessage "501,c8y_Restart", publishSmartRestMessage "503,c8y_Restart"]
    rfl (publishSmartRestMessage "501,c8y_Restart") (by decide)

/-!
## Round trip of the Row Codec (C8)
-/

lemma scan_quoted (f : List Char) :
    ∀ rest field record expected,
    scanRecords (escapeQuotes f ++ '"' :: rest) .quoted field record expected =
      scanRecords rest .closedQuote (field ++ f) record expected := by
  induction f with
  | nil => intro rest field record expected; simp [escapeQuotes, scanRecords]
  | cons c g ih =>
    intro rest field record expected
    by_cases hc : c = '"'
    · subst hc
      simp [escapeQuotes, scanRecords, ih]
    · simp [escapeQuotes, scanRecords, hc, ih]

lemma scan_unquoted (f : List Char)
    (hf : ∀ c ∈ f, ¬c = '"' ∧ ¬c = ',' ∧ ¬c = '\n') :
    ∀ rest field record expected,
    scanRecords (f ++ rest) .unquoted field record expected =
      scanRecords rest .unquoted (field ++ f) record expected := by
  induction f with
  | nil => intro rest field record expected; simp
  | cons c g ih =>
    intro rest field record expected
    obtain ⟨hc1, hc2, hc3⟩ := hf c (List.mem_cons_self c g)
    have hg : ∀ c ∈ g, ¬c = '"' ∧ ¬c = ',' ∧ ¬c = '\n' :=
      fun x hx => hf x (List.mem_cons_of_mem c hx)
    simp [scanRecords, hc1, hc2, hc3, ih hg]

lemma not_mem_escapeQuotes {c0 : Char} (hq : c0 ≠ '"') {f : List Char} (h : c0 ∉ f) :
    c0 ∉ escapeQuotes f := by
  induction f with
  | nil => simp [escapeQuotes]
  | cons c g ih =>
    simp only [List.mem_cons, not_or] at h
    by_cases hc : c = '"' <;>
      simp_all [escapeQuotes, hc, List.mem_cons, not_or]

lemma not_mem_encodeFieldL {c0 : Char} (hq : c0 ≠ '"') {f : List Char} (h : c0 ∉ f) :
    c0 ∉ encodeFieldL f := by
  unfold encodeFieldL
  split_ifs with hs
  · intro hmem
    rcases List.mem_cons.1 hmem with e | hmem2
    · exact hq e
    · rcases List.mem_append.1 hmem2 with hin1 | hin2
      · exact not_mem_escapeQuotes hq h hin1
      · exact hq (List.mem_singleton.1 hin2)
  · exact h

lemma not_mem_encodeL {c0 : Char} (hq : c0 ≠ '"') (hc : c0 ≠ ',') :
    ∀ {L : List (List Char)}, (∀ f ∈ L, c0 ∉ f) → c0 ∉ encodeL L := by
  intro L
  induction L with
  | nil => simp [encodeL]
  | cons f fs ih =>
    intro h
    cases fs with
    | nil =>
      simpa [encodeL] using not_mem_encodeFieldL hq (h f (List.mem_cons_self f []))
    | cons f2 fs2 =>
      simp only [encodeL, List.mem_append, List.mem_cons, not_or]
      refine ⟨not_mem_encodeFieldL hq (h f (List.mem_cons_self f _)), hc, ?_⟩
      exact ih fun x hx => h x (List.mem_cons_of_mem f hx)

lemma normalizeCRLF_id : ∀ cs : List Char, '\n' ∉ cs → normalizeCRLF cs = cs
  | [], _ => rfl
  | [_], _ => rfl
  | c :: c2 :: rest, h => by
    have h2 : '\n' ∉ c2 :: rest := fun hm => h (List.mem_cons_of_mem _ hm)
    have hc2 : ¬c2 = '\n' := fun e => h (by simp [e])
    rw [normalizeCRLF, if_neg (by rintro ⟨-, e2⟩; exact hc2 e2),
      normalizeCRLF_id (c2 :: rest) h2]

lemma dropFinalCR_id : ∀ cs : List Char, '\r' ∉ cs → dropFinalCR cs = cs
  | [], _ => rfl
  | [c], h => by
    rw [dropFinalCR, if_neg (fun e => h (by simp [e]))]
  | c :: c2 :: rest, h => by
    show c :: dropFinalCR (c2 :: rest) = c :: c2 :: rest
    rw [dropFinalCR_id (c2 :: rest) (fun hm => h (List.mem_cons_of_mem _ hm))]

lemma scan_encode (fields : List (List Char)) :
    fields ≠ [] → (∀ f ∈ fields, '\n' ∉ f) →
    ∀ record expected, ¬(record = [] ∧ fields = [[]]) →
    scanRecords (encodeL fields) .fieldStart [] record expected =
      (if checkCount (record ++ fields) expected then Except.ok [record ++ fields]
       else Except.error CsvErr.fieldCount) := by
  induction fields with
  | nil => intro h; exact absurd rfl h
  | cons f fs ih =>
    intro _ h2 record expected h3
    have hfnl : '\n' ∉ f := h2 f (List.mem_cons_self f fs)
    cases fs with
    | nil =>
      by_cases hq : ',' ∈ f ∨ '"' ∈ f
      · have : encodeL [f] = '"' :: (escapeQuotes f ++ '"' :: []) := by
          simp [encodeL, encodeFieldL, hq]
        rw [this]
        simp only [scanRecords, reduceIte]
        rw [scan_quoted f [] [] record expected]
        simp [scanRecords]
      · push_neg at hq
        cases f with
        | nil =>
          have hrec : record ≠ [] := fun hr => h3 ⟨hr, rfl⟩
          have : encodeL [([] : List Char)] = [] := by simp [encodeL, encodeFieldL]
          rw [this]
          simp [scanRecords, hrec]
        | cons c g =>
          have hc1 : ¬c = '"' := fun e => hq.2 (by rw [← e]; exact List.mem_cons_self c g)
          have hc2 : ¬c = ',' := fun e => hq.1 (by rw [← e]; exact List.mem_cons_self c g)
          have hc3 : ¬c = '\n' := fun e => hfnl (by rw [← e]; exact List.mem_cons_self c g)
          have hg : ∀ x ∈ g, ¬x = '"' ∧ ¬x = ',' ∧ ¬x = '\n' := by
            intro x hx
            refine ⟨fun e => hq.2 ?_, fun e => hq.1 ?_, fun e => hfnl ?_⟩ <;>
              (rw [← e]; exact List.mem_cons_of_mem c hx)
          have : encodeL [c :: g] = c :: (g ++ []) := by simp [encodeL, encodeFieldL, hq.1, hq.2]
          rw [this]
          simp only [scanRecords, hc1, hc2, hc3, reduceIte, if_neg]
          simp only [List.nil_append]
          rw [scan_unquoted g hg [] [c] record expected]
          simp [scanRecords]
    | cons f2 fs2 =>
      have hfs : (f2 :: fs2 : List (List Char)) ≠ [] := by simp
      have h2' : ∀ x ∈ f2 :: fs2, '\n' ∉ x := fun x hx => h2 x (List.mem_cons_of_mem f hx)
      have henc : encodeL (f :: f2 :: fs2) = encodeFieldL f ++ ',' :: encodeL (f2 :: fs2) := by
        simp [encodeL]
      rw [henc]
      by_cases hq : ',' ∈ f ∨ '"' ∈ f
      · have : encodeFieldL f ++ ',' :: encodeL (f2 :: fs2) =
            '"' :: (escapeQuotes f ++ '"' :: (',' :: encodeL (f2 :: fs2))) := by
          simp [encodeFieldL, hq]
        rw [this]
        simp only [scanRecords, reduceIte]
        rw [scan_quoted f (',' :: encodeL (f2 :: fs2)) [] record expected]
        simp only [scanRecords, reduceIte, List.nil_append]
        rw [ih hfs h2' (record ++ [f]) expected (by simp)]
        simp
      · push_neg at hq
        cases f with
        | nil =>
          have : encodeFieldL ([] : List Char) ++ ',' :: encodeL (f2 :: fs2) =
              ',' :: encodeL (f2 :: fs2) := by simp [encodeFieldL]
          rw [this]
          simp only [scanRecords, reduceIte]
          rw [ih hfs h2' (record ++ [[]]) expected (by simp)]
          simp
        | cons c g =>
          have hc1 : ¬c = '"' := fun e => hq.2 (by rw [← e]; exact List.mem_cons_self c g)
          have hc2 : ¬c = ',' := fun e => hq.1 (by rw [← e]; exact List.mem_cons_self c g)
          have hc3 : ¬c = '\n' := fun e => hfnl (by rw [← e]; exact List.mem_cons_self c g)
          have hg : ∀ x ∈ g, ¬x = '"' ∧ ¬x = ',' ∧ ¬x = '\n' := by
            intro x hx
            refine ⟨fun e => hq.2 ?_, fun e => hq.1 ?_, fun e => hfnl ?_⟩ <;>
              (rw [← e]; exact List.mem_cons_of_mem c hx)
          have : encodeFieldL (c :: g) ++ ',' :: encodeL (f2 :: fs2) =
              c :: (g ++ ',' :: encodeL (f2 :: fs2)) := by
            simp [encodeFieldL, hq.1, hq.2]
          rw [this]
          simp only [scanRecords, hc1, hc2, hc3, reduceIte, if_neg]
          simp only [List.nil_append]
          rw [scan_unquoted g hg (',' :: encodeL (f2 :: fs2)) [c] record expected]
          rw [show scanRecords (',' :: encodeL (f2 :: fs2)) ScanState.unquoted ([c] ++ g)
                record expected =
              scanRecords (encodeL (f2 :: fs2)) ScanState.fieldStart []
                (record ++ [[c] ++ g]) expected from by simp [scanRecords]]
          simp only [List.singleton_append]
          rw [ih hfs h2' (record ++ [c :: g]) expected (by simp)]
          simp

/-- Counterexample for C8: the field sequence consisting of one empty field
contains no quote character at all, yet it does not round-trip: its encoding is
the empty row, which the decoder skips as a blank line, yielding no records
instead of the original field sequence. -/
theorem c8_counterexample :
    readAllRecords (encode [""]) = [] ∧ readAllRecords (encode [""]) ≠ [[""]] :=
  ⟨rfl, by decide⟩

/-- C8 amended: for every nonempty field sequence other than the single empty
field, whose fields contain no line terminator (CR or LF), decoding the
encoded row yields exactly the original field sequence - fields containing the
comma delimiter or the quote character round-trip through the standard CSV
quoting with doubled internal quotes. The exclusions are forced by the
counterexample family: [] and [""] encode to the blank line the decoder skips,
and an unquoted line terminator splits the row. -/
theorem c8_round_trip (fields : List String) (h1 : fields ≠ []) (h2 : fields ≠ [""])
    (h3 : ∀ f ∈ fields, '\n' ∉ f.data ∧ '\r' ∉ f.data) :
    readAllRecords (encode fields) = [fields] := by
  have hmemn : ∀ f ∈ fields.map String.data, '\n' ∉ f := by
    intro f hf
    obtain ⟨s, hs, rfl⟩ := List.mem_map.1 hf
    exact (h3 s hs).1
  have hmemr : ∀ f ∈ fields.map String.data, '\r' ∉ f := by
    intro f hf
    obtain ⟨s, hs, rfl⟩ := List.mem_map.1 hf
    exact (h3 s hs).2
  have hnl : '\n' ∉ encodeL (fields.map String.data) :=
    not_mem_encodeL (by decide) (by decide) hmemn
  have hcr : '\r' ∉ encodeL (fields.map String.data) :=
    not_mem_encodeL (by decide) (by decide) hmemr
  have hfe : fields.map String.data ≠ [] := by
    intro he
    exact h1 (List.map_eq_nil_iff.1 he)
  have hside : ¬(([] : List (List Char)) = [] ∧ fields.map String.data = [[]]) := by
    rintro ⟨-, hE⟩
    apply h2
    cases fields with
    | nil => simp at hE
    | cons s t =>
      simp only [List.map_cons, List.cons.injEq] at hE
      obtain ⟨hs, ht⟩ := hE
      have hs2 : s = "" := congrArg List.asString hs
      have ht2 : t = [] := List.map_eq_nil_iff.1 ht
      rw [hs2, ht2]
  have hmap : (fields.map String.data).map List.asString = fields := by
    rw [List.map_map]
    have hco : (List.asString ∘ String.data) = id := funext fun s => rfl
    rw [hco, List.map_id]
  have hdata : (encode fields).data = encodeL (fields.map String.data) := rfl
  unfold readAllRecords
  rw [hdata, normalizeCRLF_id _ hnl, dropFinalCR_id _ hcr,
    scan_encode (fields.map String.data) hfe hmemn [] none hside]
  simp [checkCount, hmap]

/-- Witness for C8 amended on a three-field sequence exercising both the comma
and the quote quoting paths. -/
theorem c8_witness :
    readAllRecords (encode ["a", "b,c", "d\"e"]) = [["a", "b,c", "d\"e"]] :=
  c8_round_trip ["a", "b,c", "d\"e"] (by decide) (by decide) (by decide)

end C8y
